import Mathlib

/-!
Shallow embedding of the `conways` terminal Game-of-Life program
(`src/main.rs`) together with a verification of its specification.

The Rust program keeps a `Vec<Vec<Cell>>` board of `WINDOW_WIDTH = 130`
columns, each holding `WINDOW_HEIGHT = 40` cells.  Each generation it
clones the board, recomputes every cell's state from the clone
(`update_board` / `count_neighbors`), and redraws.  We embed the board as
`List (List Cell)`, model fallible `Vec` indexing with `Option`, model the
`u16 as i16` cast explicitly, and model the process-wide random source as
a boolean stream consumed through an explicit draw counter.
-/

namespace Conways

/-- `enum CellState { Alive, Dead }` from the source. -/
inductive CellState where
  | Alive
  | Dead
deriving DecidableEq, Repr

/-- `struct Cell { x: u16, y: u16, state: CellState }` from the source;
`u16` values are embedded as `Nat` (the one place the 16-bit width
matters, the `as i16` cast, is modelled by `u16_as_i16`). -/
structure Cell where
  x : Nat
  y : Nat
  state : CellState
deriving DecidableEq, Repr

/-- `const WINDOW_WIDTH: u16 = 130`. -/
def WINDOW_WIDTH : Nat := 130

/-- `const WINDOW_HEIGHT: u16 = 40`. -/
def WINDOW_HEIGHT : Nat := 40

/-- `const ALIVE_SYMBOL: char = '█'`. -/
def ALIVE_SYMBOL : Char := '█'

/-- `const DEAD_SYMBOL: char = ' '`. -/
def DEAD_SYMBOL : Char := ' '

/-- The board type: `Vec<Vec<Cell>>`, outer index = `x`, inner = `y`. -/
abbrev Board := List (List Cell)

/-- The Rust cast `x as i16` applied to a `u16` value (embedded as a `Nat`
below `2^16`): values below `2^15` are unchanged, larger ones wrap to
negative. -/
def u16_as_i16 (n : Nat) : Int :=
  if n < 32768 then (n : Int) else (n : Int) - 65536

/-- Fallible double indexing `board[x][y]`: Rust panics out of bounds, the
embedding returns `none`. -/
def getCell? (board : Board) (x y : Nat) : Option Cell :=
  board[x]?.bind fun row => row[y]?

/-- One iteration of the nested `for i in -1..=1 { for j in -1..=1 { … } }`
body of `count_neighbors`: skip `(0,0)`, skip offsets whose coordinates
fall outside the window, otherwise index the board (fallibly) and count
`Alive`. -/
def cn_step (board : Board) (cx cy : Nat) (acc : Option Int) (d : Int × Int) :
    Option Int :=
  if d.1 = 0 ∧ d.2 = 0 then acc
  else
    let x := u16_as_i16 cx + d.1
    let y := u16_as_i16 cy + d.2
    if x < 0 ∨ y < 0 ∨ x ≥ (WINDOW_WIDTH : Int) ∨ y ≥ (WINDOW_HEIGHT : Int) then acc
    else
      acc.bind fun n =>
        (getCell? board x.toNat y.toNat).map fun c =>
          if c.state = CellState.Alive then n + 1 else n

/-- `fn count_neighbors(cell: &mut Cell, board: &[Vec<Cell>]) -> i32`:
the nested loops over `i, j ∈ -1..=1` threading `num_neighbors`. -/
def count_neighbors (cell : Cell) (board : Board) : Option Int :=
  ([-1, 0, 1] : List Int).foldl
    (fun acc i =>
      ([-1, 0, 1] : List Int).foldl
        (fun acc2 j => cn_step board cell.x cell.y acc2 (i, j)) acc)
    (some 0)

/-- The `match (cell.state, num_neighbors)` arms inside `update_board`:
`(Alive, 2..=3) => Alive`, `(Dead, 3) => Alive`, `_ => Dead`. -/
def next_state : CellState → Int → CellState
  | CellState.Alive, n => if 2 ≤ n ∧ n ≤ 3 then CellState.Alive else CellState.Dead
  | CellState.Dead, n => if n = 3 then CellState.Alive else CellState.Dead

/-- `fn update_board(board: &mut Vec<Vec<Cell>>)`: clone the board, then
rewrite every cell's state from the neighbor count taken on the clone.
The in-place `iter_mut` loops only ever write `cell.state` and only ever
read `board_clone`, so the pass is a (fallible) map. -/
def update_board (board : Board) : Option Board :=
  let board_clone := board
  board.mapM fun row =>
    row.mapM fun cell =>
      (count_neighbors cell board_clone).map fun n =>
        { cell with state := next_state cell.state n }

/-! ### Initializer, renderer and startup check -/

/-- One `rand::random::<bool>()` draw: the process-wide pseudo-random
source is modelled as a boolean stream `r` read at a draw counter `k`,
which the draw advances. -/
def rand_random (r : Nat → Bool) (k : Nat) : Bool × Nat := (r k, k + 1)

/-- `fn generate_random_cell(x: u16, y: u16) -> Cell`:
`if rand::random() && rand::random() { Alive } else { Dead }` — note the
`&&` short-circuit: the second draw happens only when the first is true.
Returns the cell together with the advanced draw counter. -/
def generate_random_cell (r : Nat → Bool) (x y : Nat) (k : Nat) : Cell × Nat :=
  let p1 := rand_random r k
  if p1.1 then
    let p2 := rand_random r p1.2
    (⟨x, y, if p2.1 then CellState.Alive else CellState.Dead⟩, p2.2)
  else
    (⟨x, y, CellState.Dead⟩, p1.2)

/-- The inner `for j in 0..WINDOW_HEIGHT { row.push(generate_random_cell(i, j)) }`
loop of `initialize_board`, generalised over the list of `j` values and
threading the draw counter. -/
def init_row (r : Nat → Bool) (i : Nat) : List Nat → Nat → List Cell × Nat
  | [], k => ([], k)
  | j :: js, k =>
    let p := generate_random_cell r i j k
    let q := init_row r i js p.2
    (p.1 :: q.1, q.2)

/-- The outer `for i in 0..WINDOW_WIDTH { … board.push(row) }` loop of
`initialize_board`. -/
def init_rows (r : Nat → Bool) : List Nat → Nat → Board × Nat
  | [], k => ([], k)
  | i :: is, k =>
    let p := init_row r i (List.range WINDOW_HEIGHT) k
    let q := init_rows r is p.2
    (p.1 :: q.1, q.2)

/-- `fn initialize_board() -> Vec<Vec<Cell>>`, with the ambient random
source made explicit; draws start at counter `0`. -/
def initialize_board (r : Nat → Bool) : Board :=
  (init_rows r (List.range WINDOW_WIDTH) 0).1

/-- One terminal operation emitted by the program: an absolute cursor
move (`termion::cursor::Goto`) or a single written character. -/
inductive TermOp where
  | goto (col row : Nat)
  | put (c : Char)
deriving DecidableEq, Repr

/-- `fn print_char(x: u16, y: u16, c: char)`: emits
`Goto(x+1, y+1)`, the character, then `Goto(WINDOW_WIDTH+1, WINDOW_HEIGHT+1)`. -/
def print_char (x y : Nat) (c : Char) : List TermOp :=
  [TermOp.goto (x + 1) (y + 1), TermOp.put c,
   TermOp.goto (WINDOW_WIDTH + 1) (WINDOW_HEIGHT + 1)]

/-- `fn render_board(board: &[Vec<Cell>])`: for every cell, in board
order, choose the glyph by `match cell.state` and call `print_char`. -/
def render_board (board : Board) : List TermOp :=
  board.flatMap fun row =>
    row.flatMap fun cell =>
      print_char cell.x cell.y
        (match cell.state with
         | CellState.Alive => ALIVE_SYMBOL
         | CellState.Dead => DEAD_SYMBOL)

/-- The panic message of `check_terminal_size` (the `panic!` format string
with the two constants substituted). -/
def TERMINAL_ERROR_MSG : String :=
  "Terminal size too small. Please resize terminal to at least " ++
    toString WINDOW_WIDTH ++ " by " ++ toString WINDOW_HEIGHT

/-- `fn check_terminal_size()`: the queried terminal dimensions are made
explicit parameters; the `panic!` becomes `Except.error`. -/
def check_terminal_size (width height : Nat) : Except String Unit :=
  if width < WINDOW_WIDTH ∨ height < WINDOW_HEIGHT then
    Except.error TERMINAL_ERROR_MSG
  else
    Except.ok ()

/-- The startup part of `fn main()`: run `check_terminal_size` first, and
only then build the initial board.  (The subsequent infinite frame loop is
not part of the startup contract.) -/
def main_startup (width height : Nat) (r : Nat → Bool) :
    Except String Board := do
  _ ← check_terminal_size width height
  pure (initialize_board r)

/-! ### Spec-side definitions

These follow the wording of the specification (§4.3 Stepper, §4.4
Renderer, §8 Testable properties), to be compared with the embedding of
the source. -/

/-- Spec §8: `next(s, n)` is `Alive` iff `(s=Alive and n∈{2,3})` or
`(s=Dead and n=3)`, `Dead` otherwise. -/
def spec_next (s : CellState) (n : Nat) : CellState :=
  if (s = CellState.Alive ∧ (n = 2 ∨ n = 3)) ∨ (s = CellState.Dead ∧ n = 3) then
    CellState.Alive
  else
    CellState.Dead

/-- Spec §4.3: the relative offsets `(dx, dy)` for `dx, dy ∈ {-1, 0, 1}`
(the `(0,0)` exclusion is part of the counting predicate). -/
def neighbor_offsets : List (Int × Int) :=
  ([-1, 0, 1] : List Int).flatMap fun dx =>
    ([-1, 0, 1] : List Int).map fun dy => (dx, dy)

/-- Spec §4.3, step 1: offset `d` from `(x, y)` is a live neighbor — it
is not `(0,0)`, its target lies inside `[0, WIDTH) × [0, HEIGHT)`
(offsets falling outside are skipped, never wrapped), and the target cell
is `Alive`. -/
def nb_pred (f : Nat → Nat → CellState) (x y : Nat) (d : Int × Int) : Prop :=
  ¬(d.1 = 0 ∧ d.2 = 0) ∧
  0 ≤ (x : Int) + d.1 ∧ (x : Int) + d.1 < (WINDOW_WIDTH : Int) ∧
  0 ≤ (y : Int) + d.2 ∧ (y : Int) + d.2 < (WINDOW_HEIGHT : Int) ∧
  f ((x : Int) + d.1).toNat ((y : Int) + d.2).toNat = CellState.Alive

instance nb_pred_dec (f : Nat → Nat → CellState) (x y : Nat) (d : Int × Int) :
    Decidable (nb_pred f x y d) := by
  unfold nb_pred
  infer_instance

/-- Spec §4.3, step 1, for a grid given as a state function: the number
of live neighbors of `(x, y)`. -/
def spec_count (f : Nat → Nat → CellState) (x y : Nat) : Nat :=
  neighbor_offsets.countP fun d => decide (nb_pred f x y d)

/-- Spec §4.3 step 2: the next generation of a grid-as-state-function —
every cell's new state comes from the rule applied to its old state and
the neighbor count taken on the old grid. -/
def spec_step (f : Nat → Nat → CellState) : Nat → Nat → CellState :=
  fun x y => spec_next (f x y) (spec_count f x y)

/-- Build the `WINDOW_WIDTH × WINDOW_HEIGHT` board whose cell at `(i, j)`
carries coordinates `(i, j)` and state `f i j`. -/
def mkBoard (f : Nat → Nat → CellState) : Board :=
  (List.range WINDOW_WIDTH).map fun i =>
    (List.range WINDOW_HEIGHT).map fun j => ⟨i, j, f i j⟩

/-- The state function of a board (`Dead` off the board). -/
def stateAt (board : Board) (x y : Nat) : CellState :=
  match getCell? board x y with
  | some c => c.state
  | none => CellState.Dead

/-- Spec §5 / §9: the pure stepper — read only the old grid, build a
fresh next grid. -/
def spec_update (board : Board) : Board :=
  mkBoard (spec_step (stateAt board))

/-- Spec §4.4: for every cell, in board order, one glyph write at
1-based position `(x+1, y+1)` — block for `Alive`, space for `Dead` —
each followed by a cursor reposition to the parking location
`(WIDTH+1, HEIGHT+1)`. -/
def spec_render (board : Board) : List TermOp :=
  board.flatMap fun row =>
    row.flatMap fun cell =>
      [TermOp.goto (cell.x + 1) (cell.y + 1),
       TermOp.put (if cell.state = CellState.Alive then ALIVE_SYMBOL else DEAD_SYMBOL),
       TermOp.goto (WINDOW_WIDTH + 1) (WINDOW_HEIGHT + 1)]

/-- The grid invariant (spec §3): `WINDOW_WIDTH` rows of
`WINDOW_HEIGHT` cells, and the cell stored at outer index `i`, inner
index `j` carries exactly the coordinates `(i, j)`. -/
def WellFormed (board : Board) : Prop :=
  board.length = WINDOW_WIDTH ∧
  ∀ (i : Nat) (row : List Cell), board[i]? = some row →
    row.length = WINDOW_HEIGHT ∧
    ∀ (j : Nat) (c : Cell), row[j]? = some c → c.x = i ∧ c.y = j

/-! ### Concrete test patterns (spec §8) -/

/-- The all-dead grid state. -/
def deadF : Nat → Nat → CellState := fun _ _ => CellState.Dead

/-- A 2×2 "block" still-life at columns 10–11, rows 10–11 — separated
from every grid edge by well over 2 cells of dead space. -/
def blockF (x y : Nat) : CellState :=
  if (x = 10 ∨ x = 11) ∧ (y = 10 ∨ y = 11) then CellState.Alive else CellState.Dead

/-- A horizontal blinker: three alive cells in a row at columns 9–11 of
row 10, surrounded by dead cells. -/
def blinkH (x y : Nat) : CellState :=
  if y = 10 ∧ (x = 9 ∨ x = 10 ∨ x = 11) then CellState.Alive else CellState.Dead

/-- The vertical phase of the same blinker: rows 9–11 of column 10. -/
def blinkV (x y : Nat) : CellState :=
  if x = 10 ∧ (y = 9 ∨ y = 10 ∨ y = 11) then CellState.Alive else CellState.Dead

/-! ### Helper lemmas -/

lemma u16_as_i16_small (n : Nat) (h : n < 32768) : u16_as_i16 n = (n : Int) := by
  simp [u16_as_i16, h]

lemma getCell?_mkBoard (f : Nat → Nat → CellState) (a b : Nat) :
    getCell? (mkBoard f) a b =
      if a < WINDOW_WIDTH ∧ b < WINDOW_HEIGHT then some ⟨a, b, f a b⟩ else none := by
  unfold getCell? mkBoard
  by_cases ha : a < WINDOW_WIDTH
  · rw [List.getElem?_map, List.getElem?_range ha]
    by_cases hb : b < WINDOW_HEIGHT
    · simp [List.getElem?_map, List.getElem?_range hb, ha, hb]
    · have : WINDOW_HEIGHT ≤ b := Nat.le_of_not_lt hb
      simp [List.getElem?_map, List.getElem?_eq_none, this, ha, hb,
        List.getElem?_eq_none (by simpa using this : (List.range WINDOW_HEIGHT).length ≤ b)]
  · have : WINDOW_WIDTH ≤ a := Nat.le_of_not_lt ha
    rw [List.getElem?_map,
      List.getElem?_eq_none (by simpa using this : (List.range WINDOW_WIDTH).length ≤ a)]
    simp [ha]

lemma next_state_coe (s : CellState) (n : Nat) :
    next_state s (n : Int) = spec_next s n := by
  cases s with
  | Alive =>
    by_cases h : n = 2 ∨ n = 3
    · have h2 : 2 ≤ (n : Int) ∧ (n : Int) ≤ 3 := by omega
      simp [next_state, spec_next, h, h2]
    · have h2 : ¬(2 ≤ (n : Int) ∧ (n : Int) ≤ 3) := by omega
      simp [next_state, spec_next, h, h2]
      omega
  | Dead =>
    by_cases h : n = 3
    · simp [next_state, spec_next, h]
    · have h2 : ¬((n : Int) = 3) := by omega
      simp [next_state, spec_next, h, h2]

lemma mapM_option_eq_map {α β : Type} (g : α → Option β) (h : α → β)
    (l : List α) (hl : ∀ a ∈ l, g a = some (h a)) :
    l.mapM g = some (l.map h) := by
  induction l with
  | nil => rfl
  | cons a t ih =>
    rw [List.map_cons, List.mapM_cons, hl a (by simp),
      ih (fun x hx => hl x (by simp [hx]))]
    rfl

lemma foldl_cn_step (f : Nat → Nat → CellState) (cx cy : Nat)
    (hx : cx < WINDOW_WIDTH) (hy : cy < WINDOW_HEIGHT) :
    ∀ (L : List (Int × Int)) (n : Int),
      L.foldl (cn_step (mkBoard f) cx cy) (some n) =
        some (n + (L.countP fun d => decide (nb_pred f cx cy d))) := by
  intro L
  induction L with
  | nil => intro n; simp
  | cons d t ih =>
    intro n
    rw [List.foldl_cons, List.countP_cons]
    have hx16 : u16_as_i16 cx = (cx : Int) := u16_as_i16_small cx (by
      have : WINDOW_WIDTH = 130 := rfl
      omega)
    have hy16 : u16_as_i16 cy = (cy : Int) := u16_as_i16_small cy (by
      have : WINDOW_HEIGHT = 40 := rfl
      omega)
    by_cases hzero : d.1 = 0 ∧ d.2 = 0
    · have hstep : cn_step (mkBoard f) cx cy (some n) d = some n := by
        simp [cn_step, hzero]
      have hpred : ¬nb_pred f cx cy d := fun hp => hp.1 hzero
      rw [hstep, ih n]
      simp [hpred]
    · by_cases hguard : (cx : Int) + d.1 < 0 ∨ (cy : Int) + d.2 < 0 ∨
        (cx : Int) + d.1 ≥ (WINDOW_WIDTH : Int) ∨ (cy : Int) + d.2 ≥ (WINDOW_HEIGHT : Int)
      · have hstep : cn_step (mkBoard f) cx cy (some n) d = some n := by
          simp only [cn_step, hx16, hy16]
          rw [if_neg hzero, if_pos hguard]
        have hpred : ¬nb_pred f cx cy d := by
          intro hp
          rcases hp with ⟨-, h1, h2, h3, h4, -⟩
          rcases hguard with h | h | h | h <;> omega
        rw [hstep, ih n]
        simp [hpred]
      · push_neg at hguard
        obtain ⟨g1, g2, g3, g4⟩ := hguard
        have hxin : ((cx : Int) + d.1).toNat < WINDOW_WIDTH := by omega
        have hyin : ((cy : Int) + d.2).toNat < WINDOW_HEIGHT := by omega
        have hstep : cn_step (mkBoard f) cx cy (some n) d =
            some (if f ((cx : Int) + d.1).toNat ((cy : Int) + d.2).toNat = CellState.Alive
              then n + 1 else n) := by
          simp only [cn_step, hx16, hy16]
          rw [if_neg hzero, if_neg (by push_neg; exact ⟨by omega, by omega, by omega, by omega⟩)]
          rw [getCell?_mkBoard, if_pos ⟨hxin, hyin⟩]
          rfl
        rw [hstep]
        by_cases halive : f ((cx : Int) + d.1).toNat ((cy : Int) + d.2).toNat = CellState.Alive
        · have hpred : nb_pred f cx cy d :=
            ⟨hzero, by omega, by omega, by omega, by omega, halive⟩
          rw [if_pos halive, ih (n + 1)]
          simp [hpred]
          omega
        · have hpred : ¬nb_pred f cx cy d := fun hp => halive hp.2.2.2.2.2
          rw [if_neg halive, ih n]
          simp [hpred]

lemma count_neighbors_mkBoard (f : Nat → Nat → CellState) (cx cy : Nat) (s : CellState)
    (hx : cx < WINDOW_WIDTH) (hy : cy < WINDOW_HEIGHT) :
    count_neighbors ⟨cx, cy, s⟩ (mkBoard f) = some ((spec_count f cx cy : Nat) : Int) := by
  have hfold : count_neighbors ⟨cx, cy, s⟩ (mkBoard f) =
      neighbor_offsets.foldl (cn_step (mkBoard f) cx cy) (some 0) := rfl
  rw [hfold, foldl_cn_step f cx cy hx hy neighbor_offsets 0]
  simp [spec_count]

lemma update_board_mkBoard (f : Nat → Nat → CellState) :
    update_board (mkBoard f) = some (mkBoard (spec_step f)) := by
  unfold update_board
  have houter : (mkBoard f).mapM
      (fun row => row.mapM fun cell =>
        (count_neighbors cell (mkBoard f)).map fun n =>
          { cell with state := next_state cell.state n }) =
      some ((mkBoard f).map fun row => row.map fun cell =>
        { cell with state := spec_step f cell.x cell.y }) := by
    apply mapM_option_eq_map
    intro row hrow
    rcases List.mem_map.1 hrow with ⟨i, hi, rfl⟩
    have hiW : i < WINDOW_WIDTH := List.mem_range.1 hi
    apply mapM_option_eq_map
    intro cell hcell
    rcases List.mem_map.1 hcell with ⟨j, hj, rfl⟩
    have hjH : j < WINDOW_HEIGHT := List.mem_range.1 hj
    rw [count_neighbors_mkBoard f i j (f i j) hiW hjH]
    simp only [Option.map_some']
    rw [next_state_coe]
    rfl
  rw [houter]
  unfold mkBoard
  simp only [List.map_map]
  rfl

lemma wellFormed_mkBoard (f : Nat → Nat → CellState) : WellFormed (mkBoard f) := by
  refine ⟨by simp [mkBoard], ?_⟩
  intro i row hrow
  unfold mkBoard at hrow
  rw [List.getElem?_map] at hrow
  by_cases hi : i < WINDOW_WIDTH
  · rw [List.getElem?_range hi] at hrow
    simp only [Option.map_some', Option.some_inj] at hrow
    subst hrow
    refine ⟨by simp, ?_⟩
    intro j c hc
    rw [List.getElem?_map] at hc
    by_cases hj : j < WINDOW_HEIGHT
    · rw [List.getElem?_range hj] at hc
      simp only [Option.map_some', Option.some_inj] at hc
      subst hc
      exact ⟨rfl, rfl⟩
    · rw [List.getElem?_eq_none (by simpa using Nat.le_of_not_lt hj :
        (List.range WINDOW_HEIGHT).length ≤ j)] at hc
      simp at hc
  · rw [List.getElem?_eq_none (by simpa using Nat.le_of_not_lt hi :
      (List.range WINDOW_WIDTH).length ≤ i)] at hrow
    simp at hrow

lemma wf_eq_mkBoard (board : Board) (hwf : WellFormed board) :
    board = mkBoard (stateAt board) := by
  obtain ⟨hlen, hcells⟩ := hwf
  apply List.ext_getElem?
  intro i
  unfold mkBoard
  rw [List.getElem?_map]
  by_cases hi : i < WINDOW_WIDTH
  · rw [List.getElem?_range hi]
    have hib : i < board.length := by omega
    obtain ⟨row, hrow⟩ : ∃ row, board[i]? = some row :=
      ⟨board.get ⟨i, hib⟩, List.getElem?_eq_getElem hib⟩
    obtain ⟨hrlen, hrc⟩ := hcells i row hrow
    rw [hrow]
    simp only [Option.map_some', Option.some_inj]
    apply List.ext_getElem?
    intro j
    rw [List.getElem?_map]
    by_cases hj : j < WINDOW_HEIGHT
    · rw [List.getElem?_range hj]
      have hjb : j < row.length := by omega
      obtain ⟨c, hc⟩ : ∃ c, row[j]? = some c :=
        ⟨row.get ⟨j, hjb⟩, List.getElem?_eq_getElem hjb⟩
      obtain ⟨hcx, hcy⟩ := hrc j c hc
      have hst : stateAt board i j = c.state := by
        unfold stateAt getCell?
        rw [hrow]
        simp [hc]
      rw [hc]
      simp only [Option.map_some', Option.some_inj]
      obtain ⟨cx, cy, cs⟩ := c
      simp only at hcx hcy hst
      rw [hcx, hcy, hst]
    · rw [List.getElem?_eq_none (by omega : row.length ≤ j),
        List.getElem?_eq_none (by simpa using Nat.le_of_not_lt hj :
          (List.range WINDOW_HEIGHT).length ≤ j)]
      rfl
  · rw [List.getElem?_eq_none (by omega : board.length ≤ i),
      List.getElem?_eq_none (by simpa using Nat.le_of_not_lt hi :
        (List.range WINDOW_WIDTH).length ≤ i)]
    rfl

lemma mkBoard_congr (f g : Nat → Nat → CellState)
    (h : ∀ x, x < WINDOW_WIDTH → ∀ y, y < WINDOW_HEIGHT → f x y = g x y) :
    mkBoard f = mkBoard g := by
  unfold mkBoard
  apply List.map_congr_left
  intro i hi
  apply List.map_congr_left
  intro j hj
  rw [h i (List.mem_range.1 hi) j (List.mem_range.1 hj)]

lemma offsets_small : ∀ d ∈ neighbor_offsets,
    -1 ≤ d.1 ∧ d.1 ≤ 1 ∧ -1 ≤ d.2 ∧ d.2 ≤ 1 := by decide

lemma spec_count_eq_zero_of_dead (f : Nat → Nat → CellState) (x y : Nat)
    (h : ∀ a b : Nat, x ≤ a + 1 → a ≤ x + 1 → y ≤ b + 1 → b ≤ y + 1 →
      f a b = CellState.Dead) :
    spec_count f x y = 0 := by
  unfold spec_count
  rw [List.countP_eq_zero]
  intro d hd
  simp only [decide_eq_true_eq]
  intro hp
  obtain ⟨hne, h1, h2, h3, h4, halive⟩ := hp
  obtain ⟨hd1, hd2, hd3, hd4⟩ := offsets_small d hd
  have hdead : f ((x : Int) + d.1).toNat ((y : Int) + d.2).toNat = CellState.Dead := by
    apply h <;> omega
  rw [hdead] at halive
  exact CellState.noConfusion halive

lemma spec_step_dead_far (f : Nat → Nat → CellState) (A B : Nat)
    (hf : ∀ a b, f a b = CellState.Alive → a < A ∧ b < B)
    (x y : Nat) (hfar : A < x ∨ B < y) :
    spec_step f x y = CellState.Dead := by
  have hc : spec_count f x y = 0 := by
    apply spec_count_eq_zero_of_dead
    intro a b h1 h2 h3 h4
    cases hab : f a b with
    | Dead => rfl
    | Alive =>
      exfalso
      obtain ⟨hA, hB⟩ := hf a b hab
      omega
  have hself : f x y = CellState.Dead := by
    cases hxy : f x y with
    | Dead => rfl
    | Alive =>
      exfalso
      obtain ⟨hA, hB⟩ := hf x y hxy
      omega
  unfold spec_step
  rw [hself, hc]
  rfl

lemma generate_random_cell_fst (r : Nat → Bool) (x y k : Nat) :
    (generate_random_cell r x y k).1 =
      ⟨x, y, if r k && r (k + 1) then CellState.Alive else CellState.Dead⟩ := by
  by_cases h : r k <;> simp [generate_random_cell, rand_random, h]

lemma init_row_length (r : Nat → Bool) (i : Nat) :
    ∀ (js : List Nat) (k : Nat), (init_row r i js k).1.length = js.length := by
  intro js
  induction js with
  | nil => intro k; rfl
  | cons j t ih => intro k; simp [init_row, ih]

lemma init_row_getElem? (r : Nat → Bool) (i : Nat) :
    ∀ (js : List Nat) (k idx j : Nat), js[idx]? = some j →
      ∃ k', (init_row r i js k).1[idx]? = some (generate_random_cell r i j k').1 := by
  intro js
  induction js with
  | nil => intro k idx j h; simp at h
  | cons j0 t ih =>
    intro k idx j h
    cases idx with
    | zero =>
      simp only [List.getElem?_cons_zero, Option.some_inj] at h
      subst h
      exact ⟨k, by simp [init_row]⟩
    | succ m =>
      simp only [List.getElem?_cons_succ] at h
      obtain ⟨k', hk'⟩ := ih (generate_random_cell r i j0 k).2 m j h
      exact ⟨k', by simp [init_row, hk']⟩

lemma init_rows_length (r : Nat → Bool) :
    ∀ (is : List Nat) (k : Nat), (init_rows r is k).1.length = is.length := by
  intro is
  induction is with
  | nil => intro k; rfl
  | cons i t ih => intro k; simp [init_rows, ih]

lemma init_rows_getElem? (r : Nat → Bool) :
    ∀ (is : List Nat) (k idx i : Nat), is[idx]? = some i →
      ∃ k', (init_rows r is k).1[idx]? =
        some (init_row r i (List.range WINDOW_HEIGHT) k').1 := by
  intro is
  induction is with
  | nil => intro k idx i h; simp at h
  | cons i0 t ih =>
    intro k idx i h
    cases idx with
    | zero =>
      simp only [List.getElem?_cons_zero, Option.some_inj] at h
      subst h
      exact ⟨k, by simp [init_rows]⟩
    | succ m =>
      simp only [List.getElem?_cons_succ] at h
      obtain ⟨k', hk'⟩ := ih (init_row r i0 (List.range WINDOW_HEIGHT) k).2 m i h
      exact ⟨k', by simp [init_rows, hk']⟩

lemma initialize_board_row (r : Nat → Bool) (i : Nat) (hi : i < WINDOW_WIDTH) :
    ∃ k', (initialize_board r)[i]? =
      some (init_row r i (List.range WINDOW_HEIGHT) k').1 :=
  init_rows_getElem? r (List.range WINDOW_WIDTH) 0 i i (List.getElem?_range hi)

lemma wellFormed_initialize_board (r : Nat → Bool) :
    WellFormed (initialize_board r) := by
  constructor
  · unfold initialize_board
    rw [init_rows_length]
    simp
  · intro i row hrow
    have hi : i < WINDOW_WIDTH := by
      have hlen : i < (initialize_board r).length := by
        by_contra hcon
        rw [List.getElem?_eq_none (by omega : (initialize_board r).length ≤ i)] at hrow
        exact Option.noConfusion hrow
      unfold initialize_board at hlen
      rw [init_rows_length] at hlen
      simpa using hlen
    obtain ⟨k', hk'⟩ := initialize_board_row r i hi
    rw [hrow] at hk'
    simp only [Option.some_inj] at hk'
    subst hk'
    constructor
    · rw [init_row_length]
      simp
    · intro j c hc
      have hj : j < WINDOW_HEIGHT := by
        have hlen : j < (init_row r i (List.range WINDOW_HEIGHT) k').1.length := by
          by_contra hcon
          rw [List.getElem?_eq_none (by omega :
            (init_row r i (List.range WINDOW_HEIGHT) k').1.length ≤ j)] at hc
          exact Option.noConfusion hc
        rw [init_row_length] at hlen
        simpa using hlen
      obtain ⟨k'', hk''⟩ := init_row_getElem? r i (List.range WINDOW_HEIGHT) k' j j
        (List.getElem?_range hj)
      rw [hc] at hk''
      simp only [Option.some_inj] at hk''
      subst hk''
      rw [generate_random_cell_fst]
      exact ⟨rfl, rfl⟩

lemma spec_count_corner_le (f : Nat → Nat → CellState) :
    spec_count f 0 0 ≤ 3 ∧ spec_count f (WINDOW_WIDTH - 1) (WINDOW_HEIGHT - 1) ≤ 3 := by
  constructor
  · have h1 : (neighbor_offsets.countP fun d => decide (nb_pred f 0 0 d)) ≤
        neighbor_offsets.countP fun d =>
          decide (0 ≤ (0 : Int) + d.1 ∧ 0 ≤ (0 : Int) + d.2 ∧ ¬(d.1 = 0 ∧ d.2 = 0)) := by
      apply List.countP_mono_left
      intro d hd hp
      simp only [decide_eq_true_eq] at hp ⊢
      obtain ⟨hne, a1, a2, a3, a4, -⟩ := hp
      exact ⟨a1, a3, hne⟩
    have h2 : (neighbor_offsets.countP fun d =>
        decide (0 ≤ (0 : Int) + d.1 ∧ 0 ≤ (0 : Int) + d.2 ∧ ¬(d.1 = 0 ∧ d.2 = 0))) = 3 := by
      decide
    unfold spec_count
    omega
  · have h1 : (neighbor_offsets.countP fun d =>
        decide (nb_pred f (WINDOW_WIDTH - 1) (WINDOW_HEIGHT - 1) d)) ≤
        neighbor_offsets.countP fun d =>
          decide (((WINDOW_WIDTH - 1 : Nat) : Int) + d.1 < (WINDOW_WIDTH : Int) ∧
            ((WINDOW_HEIGHT - 1 : Nat) : Int) + d.2 < (WINDOW_HEIGHT : Int) ∧
            ¬(d.1 = 0 ∧ d.2 = 0)) := by
      apply List.countP_mono_left
      intro d hd hp
      simp only [decide_eq_true_eq] at hp ⊢
      obtain ⟨hne, a1, a2, a3, a4, -⟩ := hp
      exact ⟨a2, a4, hne⟩
    have h2 : (neighbor_offsets.countP fun d =>
        decide (((WINDOW_WIDTH - 1 : Nat) : Int) + d.1 < (WINDOW_WIDTH : Int) ∧
          ((WINDOW_HEIGHT - 1 : Nat) : Int) + d.2 < (WINDOW_HEIGHT : Int) ∧
          ¬(d.1 = 0 ∧ d.2 = 0))) = 3 := by
      decide
    unfold spec_count
    omega

/-! ### The claims -/

/-- C1: for every cell state `s` and neighbor count `n ∈ [0, 8]`, the
transition applied by `update_board` yields `Alive` exactly when
`(s = Alive ∧ n ∈ {2,3}) ∨ (s = Dead ∧ n = 3)`, and `Dead` in every
other case — no other rule. -/
theorem C1_transition_rule (s : CellState) (n : Int) (h0 : 0 ≤ n) (h8 : n ≤ 8) :
    (next_state s n = CellState.Alive ↔
      ((s = CellState.Alive ∧ (n = 2 ∨ n = 3)) ∨ (s = CellState.Dead ∧ n = 3))) ∧
    (next_state s n = CellState.Dead ↔
      ¬((s = CellState.Alive ∧ (n = 2 ∨ n = 3)) ∨ (s = CellState.Dead ∧ n = 3))) := by
  cases s <;> constructor <;> simp only [next_state] <;> split_ifs with h <;>
    simp_all <;> omega

theorem C1_transition_rule_witness :
    (next_state CellState.Alive 3 = CellState.Alive ↔
      ((CellState.Alive = CellState.Alive ∧ ((3 : Int) = 2 ∨ (3 : Int) = 3)) ∨
        (CellState.Alive = CellState.Dead ∧ (3 : Int) = 3))) ∧
    (next_state CellState.Alive 3 = CellState.Dead ↔
      ¬((CellState.Alive = CellState.Alive ∧ ((3 : Int) = 2 ∨ (3 : Int) = 3)) ∨
        (CellState.Alive = CellState.Dead ∧ (3 : Int) = 3))) :=
  C1_transition_rule CellState.Alive 3 (by decide) (by decide)

/-- C2: on every well-formed grid the in-place `update_board` pass equals
the pure function that reads only the old grid and builds a fresh next
grid (`spec_update`): every cell's next state is computed from the
pre-update snapshot. -/
theorem C2_snapshot_refinement (b : Board) (hwf : WellFormed b) :
    update_board b = some (spec_update b) := by
  conv_lhs => rw [wf_eq_mkBoard b hwf]
  rw [update_board_mkBoard]
  rfl

theorem C2_snapshot_refinement_witness :
    update_board (mkBoard deadF) = some (spec_update (mkBoard deadF)) :=
  C2_snapshot_refinement (mkBoard deadF) (wellFormed_mkBoard deadF)

/-- C3: on a well-formed grid, `count_neighbors` at `(x, y)` returns
exactly the number of `Alive` cells among the at most 8 offset positions
inside `[0, WIDTH) × [0, HEIGHT)` (out-of-range offsets are skipped, not
wrapped); in particular a corner cell has at most 3 candidate
neighbors. -/
theorem C3_count_neighbors :
    (∀ (b : Board), WellFormed b → ∀ (x y : Nat) (s : CellState),
      x < WINDOW_WIDTH → y < WINDOW_HEIGHT →
      count_neighbors ⟨x, y, s⟩ b = some ((spec_count (stateAt b) x y : Nat) : Int)) ∧
    (∀ f : Nat → Nat → CellState,
      spec_count f 0 0 ≤ 3 ∧ spec_count f (WINDOW_WIDTH - 1) (WINDOW_HEIGHT - 1) ≤ 3) := by
  constructor
  · intro b hwf x y s hx hy
    conv_lhs => rw [wf_eq_mkBoard b hwf]
    exact count_neighbors_mkBoard (stateAt b) x y s hx hy
  · exact spec_count_corner_le

theorem C3_count_neighbors_witness :
    count_neighbors ⟨0, 0, CellState.Dead⟩ (mkBoard deadF) =
      some ((spec_count (stateAt (mkBoard deadF)) 0 0 : Nat) : Int) :=
  C3_count_neighbors.1 (mkBoard deadF) (wellFormed_mkBoard deadF) 0 0 CellState.Dead
    (by decide) (by decide)

/-- C8: `render_board` emits, for every cell in board order, exactly the
glyph write described by the spec — block glyph for `Alive`, space for
`Dead`, at terminal position `(x+1, y+1)`, followed by a reposition to
the parking location `(WIDTH+1, HEIGHT+1)`; being a pure function of the
grid, rendering the same grid twice emits the identical sequence. -/
theorem C8_render (b : Board) : render_board b = spec_render b := by
  unfold render_board spec_render
  congr 1
  funext row
  congr 1
  funext cell
  cases h : cell.state <;> simp [print_char, h]

/-- C9: the startup check fails with the fatal message naming the
required minimum dimensions iff the queried terminal width is below
`WINDOW_WIDTH` or the height below `WINDOW_HEIGHT`; otherwise startup
proceeds to create the initial grid. -/
theorem C9_startup_check (w h : Nat) (r : Nat → Bool) :
    (main_startup w h r = Except.error TERMINAL_ERROR_MSG ↔
      (w < WINDOW_WIDTH ∨ h < WINDOW_HEIGHT)) ∧
    (¬(w < WINDOW_WIDTH ∨ h < WINDOW_HEIGHT) →
      main_startup w h r = Except.ok (initialize_board r)) ∧
    TERMINAL_ERROR_MSG =
      "Terminal size too small. Please resize terminal to at least 130 by 40" := by
  refine ⟨?_, ?_, ?_⟩
  · by_cases hc : w < WINDOW_WIDTH ∨ h < WINDOW_HEIGHT <;>
      simp [main_startup, check_terminal_size, hc]
  · intro hc
    simp [main_startup, check_terminal_size, hc]
  · rfl

theorem C9_startup_check_witness :
    main_startup 200 50 (fun _ => false) =
      Except.ok (initialize_board (fun _ => false)) :=
  (C9_startup_check 200 50 (fun _ => false)).2.1 (by decide)

/-- C10: under the grid invariant no access of `update_board` or
`count_neighbors` can fail: the update always returns a board (the
out-of-bounds `none` branch is unreachable), the `as i16` coordinate
arithmetic stays inside the `i16` range for the program's dimensions, and
every in-range coordinate pair indexes an existing cell. -/
theorem C10_no_out_of_bounds :
    (∀ b : Board, WellFormed b → ∃ b', update_board b = some b') ∧
    (∀ (c : Nat) (off : Int), c < WINDOW_WIDTH → -1 ≤ off → off ≤ 1 →
      u16_as_i16 c + off = (c : Int) + off ∧
      -32768 ≤ (c : Int) + off ∧ (c : Int) + off ≤ 32767) ∧
    (∀ (b : Board) (x y : Nat), WellFormed b → x < WINDOW_WIDTH → y < WINDOW_HEIGHT →
      ∃ cc, getCell? b x y = some cc) := by
  refine ⟨?_, ?_, ?_⟩
  · intro b hwf
    refine ⟨mkBoard (spec_step (stateAt b)), ?_⟩
    conv_lhs => rw [wf_eq_mkBoard b hwf]
    exact update_board_mkBoard (stateAt b)
  · intro c off hc h1 h2
    have hW : WINDOW_WIDTH = 130 := rfl
    have hcast := u16_as_i16_small c (by omega)
    exact ⟨by rw [hcast], by omega, by omega⟩
  · intro b x y hwf hx hy
    rw [wf_eq_mkBoard b hwf, getCell?_mkBoard, if_pos ⟨hx, hy⟩]
    exact ⟨_, rfl⟩

theorem C10_no_out_of_bounds_witness :
    (∃ b', update_board (mkBoard blockF) = some b') ∧
    (u16_as_i16 0 + (-1) = ((0 : Nat) : Int) + (-1) ∧
      -32768 ≤ ((0 : Nat) : Int) + (-1) ∧ ((0 : Nat) : Int) + (-1) ≤ 32767) ∧
    (∃ cc, getCell? (mkBoard blockF) 129 39 = some cc) :=
  ⟨C10_no_out_of_bounds.1 (mkBoard blockF) (wellFormed_mkBoard blockF),
   C10_no_out_of_bounds.2.1 0 (-1) (by decide) (by decide) (by decide),
   C10_no_out_of_bounds.2.2 (mkBoard blockF) 129 39 (wellFormed_mkBoard blockF)
     (by decide) (by decide)⟩

set_option maxRecDepth 100000 in
lemma block_near : ∀ x, x < 14 → ∀ y, y < 14 → spec_step blockF x y = blockF x y := by
  decide

lemma blockF_bounded : ∀ a b, blockF a b = CellState.Alive → a < 12 ∧ b < 12 := by
  intro a b hab
  unfold blockF at hab
  by_cases hcond : (a = 10 ∨ a = 11) ∧ (b = 10 ∨ b = 11)
  · omega
  · rw [if_neg hcond] at hab
    exact CellState.noConfusion hab

/-- C4: the all-dead grid is a fixed point of `update_board`, and the
2×2 block still-life (well separated from the edges) is unchanged after
one step. -/
theorem C4_still_lifes :
    update_board (mkBoard deadF) = some (mkBoard deadF) ∧
    update_board (mkBoard blockF) = some (mkBoard blockF) := by
  constructor
  · rw [update_board_mkBoard]
    refine congrArg some (mkBoard_congr _ _ ?_)
    intro x hx y hy
    have hc : spec_count deadF x y = 0 :=
      spec_count_eq_zero_of_dead _ _ _ (fun _ _ _ _ _ _ => rfl)
    unfold spec_step
    rw [hc]
    rfl
  · rw [update_board_mkBoard]
    refine congrArg some (mkBoard_congr _ _ ?_)
    intro x hx y hy
    by_cases hnear : x < 14 ∧ y < 14
    · exact block_near x hnear.1 y hnear.2
    · have hfar : 12 < x ∨ 12 < y := by omega
      rw [spec_step_dead_far blockF 12 12 blockF_bounded x y hfar]
      unfold blockF
      rw [if_neg (by omega)]

set_option maxRecDepth 100000 in
lemma blinkHV_near : ∀ x, x < 14 → ∀ y, y < 14 → spec_step blinkH x y = blinkV x y := by
  decide

set_option maxRecDepth 100000 in
lemma blinkVH_near : ∀ x, x < 14 → ∀ y, y < 14 → spec_step blinkV x y = blinkH x y := by
  decide

lemma blinkH_bounded : ∀ a b, blinkH a b = CellState.Alive → a < 12 ∧ b < 12 := by
  intro a b hab
  unfold blinkH at hab
  by_cases hcond : b = 10 ∧ (a = 9 ∨ a = 10 ∨ a = 11)
  · omega
  · rw [if_neg hcond] at hab
    exact CellState.noConfusion hab

lemma blinkV_bounded : ∀ a b, blinkV a b = CellState.Alive → a < 12 ∧ b < 12 := by
  intro a b hab
  unfold blinkV at hab
  by_cases hcond : a = 10 ∧ (b = 9 ∨ b = 10 ∨ b = 11)
  · omega
  · rw [if_neg hcond] at hab
    exact CellState.noConfusion hab

/-- C5: a horizontal blinker becomes the corresponding vertical
three-in-a-row after one `update_board` step, and returns exactly to the
original grid after two steps. -/
theorem C5_blinker :
    update_board (mkBoard blinkH) = some (mkBoard blinkV) ∧
    update_board (mkBoard blinkV) = some (mkBoard blinkH) ∧
    (update_board (mkBoard blinkH)).bind update_board = some (mkBoard blinkH) := by
  have h1 : update_board (mkBoard blinkH) = some (mkBoard blinkV) := by
    rw [update_board_mkBoard]
    refine congrArg some (mkBoard_congr _ _ ?_)
    intro x hx y hy
    by_cases hnear : x < 14 ∧ y < 14
    · exact blinkHV_near x hnear.1 y hnear.2
    · have hfar : 12 < x ∨ 12 < y := by omega
      rw [spec_step_dead_far blinkH 12 12 blinkH_bounded x y hfar]
      unfold blinkV
      rw [if_neg (by omega)]
  have h2 : update_board (mkBoard blinkV) = some (mkBoard blinkH) := by
    rw [update_board_mkBoard]
    refine congrArg some (mkBoard_congr _ _ ?_)
    intro x hx y hy
    by_cases hnear : x < 14 ∧ y < 14
    · exact blinkVH_near x hnear.1 y hnear.2
    · have hfar : 12 < x ∨ 12 < y := by omega
      rw [spec_step_dead_far blinkV 12 12 blinkV_bounded x y hfar]
      unfold blinkH
      rw [if_neg (by omega)]
  refine ⟨h1, h2, ?_⟩
  rw [h1, Option.some_bind]
  exact h2

/-- C6: `initialize_board` produces a `WINDOW_WIDTH × WINDOW_HEIGHT`
grid whose cells carry exactly their own (in-bounds, unique) coordinates,
and `update_board` preserves this invariant and the grid's size. -/
theorem C6_grid_invariant :
    (∀ r : Nat → Bool, WellFormed (initialize_board r)) ∧
    (∀ (b b' : Board), WellFormed b → update_board b = some b' →
      WellFormed b' ∧ b'.length = b.length) ∧
    (∀ (b : Board), WellFormed b → ∀ (x y x' y' : Nat) (c c' : Cell),
      getCell? b x y = some c → getCell? b x' y' = some c' →
      c.x = c'.x → c.y = c'.y → x = x' ∧ y = y') := by
  refine ⟨wellFormed_initialize_board, ?_, ?_⟩
  · intro b b' hwf hupd
    have hpure : update_board b = some (mkBoard (spec_step (stateAt b))) := by
      conv_lhs => rw [wf_eq_mkBoard b hwf]
      exact update_board_mkBoard (stateAt b)
    rw [hpure] at hupd
    simp only [Option.some_inj] at hupd
    subst hupd
    refine ⟨wellFormed_mkBoard _, ?_⟩
    have h1 : (mkBoard (spec_step (stateAt b))).length = WINDOW_WIDTH := by
      simp [mkBoard]
    rw [h1, hwf.1]
  · intro b hwf x y x' y' c c' hc hc' hx hy
    unfold getCell? at hc hc'
    rcases Option.bind_eq_some.1 hc with ⟨row, hrow, hcell⟩
    rcases Option.bind_eq_some.1 hc' with ⟨row', hrow', hcell'⟩
    obtain ⟨-, hcoords⟩ := hwf.2 x row hrow
    obtain ⟨hcx, hcy⟩ := hcoords y c hcell
    obtain ⟨-, hcoords'⟩ := hwf.2 x' row' hrow'
    obtain ⟨hcx', hcy'⟩ := hcoords' y' c' hcell'
    omega

set_option maxRecDepth 10000 in
theorem C6_grid_invariant_witness :
    WellFormed (initialize_board (fun _ => true)) ∧
    (WellFormed (mkBoard (spec_step deadF)) ∧
      (mkBoard (spec_step deadF)).length = (mkBoard deadF).length) ∧
    ((0 : Nat) = 0 ∧ (0 : Nat) = 0) :=
  ⟨C6_grid_invariant.1 (fun _ => true),
   C6_grid_invariant.2.1 (mkBoard deadF) (mkBoard (spec_step deadF))
     (wellFormed_mkBoard deadF) (update_board_mkBoard deadF),
   C6_grid_invariant.2.2 (mkBoard deadF) (wellFormed_mkBoard deadF) 0 0 0 0
     ⟨0, 0, CellState.Dead⟩ ⟨0, 0, CellState.Dead⟩ (by rfl) (by rfl) rfl rfl⟩

/-- C7: for every in-bounds coordinate `(x, y)`, `initialize_board`
stores a cell with those coordinates whose state is `Alive` exactly when
the two boolean draws made for it (combined by short-circuit `&&`) are
both true, and `Dead` otherwise. -/
theorem C7_initializer (r : Nat → Bool) (x y : Nat)
    (hx : x < WINDOW_WIDTH) (hy : y < WINDOW_HEIGHT) :
    ∃ k, getCell? (initialize_board r) x y =
      some ⟨x, y, if r k && r (k + 1) then CellState.Alive else CellState.Dead⟩ := by
  obtain ⟨k', hk'⟩ := initialize_board_row r x hx
  obtain ⟨k'', hk''⟩ := init_row_getElem? r x (List.range WINDOW_HEIGHT) k' y y
    (List.getElem?_range hy)
  refine ⟨k'', ?_⟩
  unfold getCell?
  rw [hk', Option.some_bind, hk'', generate_random_cell_fst]

theorem C7_initializer_witness :
    ∃ k, getCell? (initialize_board (fun _ => true)) 0 0 =
      some ⟨0, 0, if (fun _ : Nat => true) k && (fun _ : Nat => true) (k + 1)
        then CellState.Alive else CellState.Dead⟩ :=
  C7_initializer (fun _ => true) 0 0 (by decide) (by decide)

end Conways
